import Mathlib

/-
Verification of the party-synchronization client in
src/screens/PartyScreen.tsx.

Modelling conventions:
- JavaScript objects that may be absent (the `party` prop, optional
  fields, the not-yet-seeded `restaurants` state) are `Option` values.
- `JSON.stringify(x) !== JSON.stringify(y)` on the embedded values is
  modelled as structural inequality: on the embedded types (records of
  strings and naturals) stringification is injective.
- React effect semantics: an effect with dependency list `[d]` runs
  exactly when `d` changed since the previous render.  Reference
  equality of arrays is modelled as structural equality; every
  `setRestaurants` call in the source constructs a fresh array.
-/

/-- A restaurant as used by the screen: `id` and `image_url` (the
descriptive fields consumed only by presentation are not modelled). -/
structure Restaurant where
  id : String
  image_url : String
deriving DecidableEq

/-- The server-authoritative Party snapshot (types.ts shape as used by
PartyScreen): all fields may be absent on the `{} as Party` value. -/
structure Party where
  id : Option String
  status : Option String
  restaurants : Option (List Restaurant)
  current : Option (List Restaurant)
  total : Option Nat
  error : Option String
deriving DecidableEq

/-- The value `{} as Party` used by `setParty({} as Party)`: an object
with every field absent. -/
def emptyParty : Party := ⟨none, none, none, none, none, none⟩

/-- The JavaScript expression `party?.current`. -/
def getCurrent : Option Party → Option (List Restaurant)
  | none => none
  | some p => p.current

/-- The JavaScript expression `party?.restaurants`. -/
def getRestaurants : Option Party → Option (List Restaurant)
  | none => none
  | some p => p.restaurants

/-- Truthiness of `party?.error` (line 60): present and non-empty. -/
def hasError : Option Party → Bool
  | none => false
  | some p =>
    match p.error with
    | none => false
    | some s => s != ""

/-- The test `party?.status === \x7bwaiting\x7d` of line 130. -/
def statusWaiting : Option Party → Bool
  | none => false
  | some p => p.status == some "waiting"

/-- The test `party?.total === 0` of line 151. -/
def totalZero : Option Party → Bool
  | none => false
  | some p => p.total == some 0

/-- The view returned by the render body of PartyScreen. -/
inductive ViewKind
  | waiting
  | exhausted
  | loading
  | active
deriving DecidableEq

/-- The cascade of early returns in the render body (lines 130, 151,
177, 190), in source order: waiting first, then exhausted
(`finished || party?.total === 0`), then the loading spinner
(`!party || !party.restaurants`; an empty array is truthy so only an
absent `restaurants` field triggers loading), else the active swipe
view. -/
def deriveView (party : Option Party) (finished : Bool) : ViewKind :=
  if statusWaiting party then ViewKind.waiting
  else if finished || totalZero party then ViewKind.exhausted
  else if (getRestaurants party).isNone then ViewKind.loading
  else ViewKind.active

/-- What a single render pass presents: the error alert of line 60 is
not an early return, it is a modal shown on top of whichever view the
cascade below it returns. -/
structure RenderOutput where
  errorAlert : Bool
  view : ViewKind
deriving DecidableEq

/-- One render pass of PartyScreen (lines 60 and 130-238). -/
def render (party : Option Party) (finished : Bool) : RenderOutput :=
  { errorAlert := hasError party, view := deriveView party finished }

/-- Outbound socket messages built by the screen. -/
inductive Msg
  | requestMore
  | swipeRight (restaurant_id : String)
  | quit
deriving DecidableEq

/-- Navigation targets of the StackParamList. -/
inductive Screen
  | home
  | join
  | party
  | matchScreen
deriving DecidableEq

/-- Effect of acknowledging a dialog: messages sent over the socket,
navigation performed, and the value passed to `setParty` if any. -/
structure AckEffect where
  messages : List Msg
  navigate : Option Screen
  partyAfter : Option Party
deriving DecidableEq

/-- The OK handler of the error alert (lines 67-70): no socket send,
navigate to Join, reset Party to the empty value. -/
def errorAck : AckEffect :=
  { messages := [], navigate := some Screen.join, partyAfter := some emptyParty }

/-- The guard of the request-more effect (line 80):
`restaurants && restaurants?.length === 3` (an array is truthy, so the
first conjunct only excludes the unseeded state). -/
def lowQueueGuard : Option (List Restaurant) → Bool
  | some rs => rs.length == 3
  | none => false

/-- Whether the request-more effect (lines 79-83) sends on a given
render: its dependency list is `[restaurants, ws]` with `ws` constant,
so it runs exactly when the `restaurants` state changed since the last
run, and it sends iff the guard holds then. -/
def requestMoreFires (prevDeps restaurants : Option (List Restaurant)) : Bool :=
  decide (prevDeps ≠ restaurants) && lowQueueGuard restaurants

/-- Modelled from the spec: the hook `usePrevious` lives in utils/hooks,
which is not part of the sources given; per the spec the Previous-Party
snapshot is "the Party value observed at the previous reconciliation
tick", so `prevState.current` in line 89 is the `current` field of the
Party value (`party || \x7b\x7d`) seen at the previous tick.  The
reconciliation effect (lines 88-95): if the stringified previous
`current` differs from the stringified `party?.current`, and
`party?.current?.length` is truthy (present, non-empty) and the
`restaurants` state exists, append `party?.current` to it; otherwise
leave the state unchanged. -/
def reconcile (prevParty : Party) (party : Option Party)
    (restaurants : Option (List Restaurant)) : Option (List Restaurant) :=
  if getCurrent party ≠ prevParty.current then
    match party, restaurants with
    | some p, some rs =>
      match p.current with
      | some l => if l.length ≠ 0 then some (rs ++ l) else restaurants
      | none => restaurants
    | _, _ => restaurants
  else restaurants

/-- The batch carried by a push: its `current` field, or nothing. -/
def batchOf (p : Party) : List Restaurant :=
  match p.current with
  | some l => l
  | none => []

/-- State threaded through successive reconciliation ticks: the
Previous-Party snapshot and the Local Queue. -/
structure RecState where
  prevParty : Party
  queue : Option (List Restaurant)
deriving DecidableEq

/-- One server push: `setParty` replaces the whole value, the
reconciliation effect then runs against the previous snapshot, and the
snapshot becomes the pushed value for the next tick. -/
def pushStep (s : RecState) (p : Party) : RecState :=
  { prevParty := p, queue := reconcile s.prevParty (some p) s.queue }

/-- A whole sequence of pushes applied in arrival order. -/
def runPushes (s : RecState) (ps : List Party) : RecState :=
  ps.foldl pushStep s

/-- The local component state of PartyScreen that the claims mention. -/
structure ScreenState where
  party : Option Party
  finished : Bool
  restaurants : Option (List Restaurant)
  details : Option Restaurant
deriving DecidableEq

/-- The Start Over button handler (lines 166-169): clear the finished
flag and set the queue to `party?.restaurants`; nothing else runs and
nothing is sent. -/
def startOver (s : ScreenState) : ScreenState × List Msg :=
  ({ s with finished := false, restaurants := getRestaurants s.party }, [])

/-- The decision procedure as claim C5 words it: structural equality
over the full previous Party value against the new one, rather than
over the `current` fields. -/
def newBatchByFullPartyEq (prevParty : Party) (party : Option Party) : Bool :=
  decide (party ≠ some prevParty)

/- Sample data for concrete runs. -/

def ra : Restaurant := ⟨"a", "img-a"⟩
def rb : Restaurant := ⟨"b", "img-b"⟩
def rc : Restaurant := ⟨"c", "img-c"⟩
def rd : Restaurant := ⟨"d", "img-d"⟩

def pA : Party := ⟨some "AB12", some "active", some [], some [ra], some 10, none⟩
def pB : Party := { pA with current := some [rb] }
def pT0 : Party := ⟨some "AB12", some "active", some [ra, rb], none, some 0, none⟩
def pW0 : Party := ⟨some "AB12", some "waiting", some [ra, rb], none, some 0, none⟩
def pEx : Party := ⟨some "AB12", some "active", some [ra, rb, rc], none, some 0, none⟩
def pErr : Party := ⟨some "AB12", some "waiting", none, none, none, some "party not found"⟩
def pPrev5 : Party := ⟨some "AB12", some "active", some [ra], some [ra], some 5, none⟩
def pNew5 : Party := { pPrev5 with total := some 9 }

/- Helper lemmas. -/

-- Normal form of the reconciliation step: everything it does depends on
-- the parties only through `getCurrent`.
theorem reconcile_eq (pp : Party) (p : Option Party) (rs : Option (List Restaurant)) :
    reconcile pp p rs =
      if getCurrent p ≠ pp.current then
        match getCurrent p, rs with
        | some l, some rs0 => if l.length ≠ 0 then some (rs0 ++ l) else rs
        | _, _ => rs
      else rs := by
  cases p with
  | none => cases rs <;> rfl
  | some q =>
    cases rs with
    | none => cases hq : q.current <;> simp [reconcile, getCurrent, hq]
    | some rs0 => cases hq : q.current <;> simp [reconcile, getCurrent, hq]

-- Each reconciliation tick can only append, and what it appends is
-- either nothing or the batch carried by the push.
theorem reconcile_append (pp p : Party) (rs : List Restaurant) :
    ∃ b, reconcile pp (some p) (some rs) = some (rs ++ b) ∧
      (b = [] ∨ b = batchOf p) := by
  rw [reconcile_eq]
  by_cases h : getCurrent (some p) ≠ pp.current
  · rw [if_pos h]
    cases hc : getCurrent (some p) with
    | none => exact ⟨[], by simp, Or.inl rfl⟩
    | some l =>
      by_cases hl : l.length ≠ 0
      · refine ⟨l, by simp [hl], Or.inr ?_⟩
        simp only [getCurrent] at hc
        simp [batchOf, hc]
      · exact ⟨[], by simp [hl], Or.inl rfl⟩
  · rw [if_neg h]
    exact ⟨[], by simp, Or.inl rfl⟩

-- Over a whole push sequence the queue stays defined, grows only at the
-- end, keeps the seed as a prefix, and is order-preservingly contained
-- in the seed followed by the pushed batches in arrival order.
theorem runPushes_sublist (pp : Party) (rs0 : List Restaurant) (ps : List Party) :
    ∃ q, (runPushes ⟨pp, some rs0⟩ ps).queue = some q ∧
      q.Sublist (rs0 ++ (ps.map batchOf).flatten) ∧ rs0 <+: q := by
  induction ps generalizing pp rs0 with
  | nil => exact ⟨rs0, rfl, by simp, ⟨[], by simp⟩⟩
  | cons p ps ih =>
    obtain ⟨b, hb, hbor⟩ := reconcile_append pp p rs0
    have hstep : runPushes ⟨pp, some rs0⟩ (p :: ps) =
        runPushes ⟨p, some (rs0 ++ b)⟩ ps := by
      simp [runPushes, pushStep, hb]
    obtain ⟨q, hq, hsub, hpre⟩ := ih p (rs0 ++ b)
    have hbsub : b.Sublist (batchOf p) := by
      cases hbor with
      | inl h => simp [h]
      | inr h => simp [h]
    refine ⟨q, by rw [hstep]; exact hq, ?_, ?_⟩
    · have h1 : ((rs0 ++ b) ++ (ps.map batchOf).flatten).Sublist
          (rs0 ++ ((p :: ps).map batchOf).flatten) := by
        rw [List.map_cons, List.flatten_cons, List.append_assoc]
        exact (List.Sublist.refl rs0).append (hbsub.append (List.Sublist.refl _))
      exact hsub.trans h1
    · have hp2 : rs0 <+: rs0 ++ b := ⟨b, rfl⟩
      exact hp2.trans hpre

/- Claim theorems. -/

/-- Claim C1, counterexample: the reconciler performs no id-based
deduplication.  Pushing current batches [a], [b], [a] (each differing
from the previous tick) appends all three, so restaurant a appears
twice in the Local Queue. -/
theorem C1_counterexample :
    (runPushes ⟨emptyParty, some []⟩ [pA, pB, pA]).queue = some [ra, rb, ra] ∧
    ¬ (([ra, rb, ra].map Restaurant.id).Nodup) := by
  decide

/-- Claim C1, amended: the Local Queue is append-only and
order-preserving — after any sequence of pushes it is the seed followed
by a selection of the pushed batches in arrival order — and it is free
of duplicate ids provided no id repeats across the seed and the pushed
batches; the reconciler itself never removes a duplicate. -/
theorem C1_amended (pp : Party) (rs0 : List Restaurant) (ps : List Party)
    (hnd : ((rs0 ++ (ps.map batchOf).flatten).map Restaurant.id).Nodup) :
    ∃ q, (runPushes ⟨pp, some rs0⟩ ps).queue = some q ∧
      (q.map Restaurant.id).Nodup ∧
      q.Sublist (rs0 ++ (ps.map batchOf).flatten) ∧ rs0 <+: q := by
  obtain ⟨q, hq, hsub, hpre⟩ := runPushes_sublist pp rs0 ps
  exact ⟨q, hq, List.Nodup.sublist (hsub.map Restaurant.id) hnd, hsub, hpre⟩

/-- Claim C1, witness for the amended theorem at a concrete input. -/
theorem C1_amended_witness :
    ∃ q, (runPushes ⟨emptyParty, some [ra]⟩ [pB]).queue = some q ∧
      (q.map Restaurant.id).Nodup ∧
      q.Sublist ([ra] ++ ([pB].map batchOf).flatten) ∧ [ra] <+: q :=
  C1_amended emptyParty [ra] [pB] (by decide)

/-- Claim C2, counterexample: a push with total 0 while the queue is
non-empty and finished is unset does not keep the Active view; the
render cascade returns the Exhausted view immediately because line 151
tests only `finished || party?.total === 0`. -/
theorem C2_counterexample :
    pT0.total = some 0 ∧
    (some [ra, rb] : Option (List Restaurant)) ≠ some [] ∧
    deriveView (some pT0) false = ViewKind.exhausted ∧
    ViewKind.exhausted ≠ ViewKind.active := by
  decide

/-- Claim C2, amended: when a snapshot with total 0 arrives and the
status is not waiting, the Exhausted view is shown immediately, even
while the Local Queue is non-empty and the finished flag is unset; the
remaining cards are not presented for swiping. -/
theorem C2_amended (p : Party) (f : Bool)
    (hs : p.status ≠ some "waiting") (ht : p.total = some 0) :
    deriveView (some p) f = ViewKind.exhausted := by
  simp [deriveView, statusWaiting, totalZero, hs, ht]

/-- Claim C2, witness for the amended theorem at a concrete input. -/
theorem C2_amended_witness : deriveView (some pT0) false = ViewKind.exhausted :=
  C2_amended pT0 false (by decide) rfl

/-- Claim C3, counterexample: with status waiting and both Exhausted
conditions true (finished set and total 0), the render cascade returns
the Waiting view, because line 130 checks waiting before line 151
checks exhaustion — Waiting wins, not Exhausted. -/
theorem C3_counterexample :
    pW0.status = some "waiting" ∧ pW0.total = some 0 ∧
    deriveView (some pW0) true = ViewKind.waiting ∧
    ViewKind.waiting ≠ ViewKind.exhausted := by
  decide

/-- Claim C3, amended: the error alert and the exit confirmation are
modal dialogs layered over the returned view; among the returned views
the precedence is Waiting, then Exhausted, then Loading, then Active —
in particular, when status is waiting and the Exhausted condition holds
at the same time, the Waiting view wins. -/
theorem C3_amended (p : Party) (f : Bool) (hw : p.status = some "waiting")
    (hx : f = true ∨ p.total = some 0) :
    deriveView (some p) f = ViewKind.waiting := by
  simp [deriveView, statusWaiting, hw]

/-- Claim C3, witness for the amended theorem at a concrete input. -/
theorem C3_amended_witness : deriveView (some pW0) true = ViewKind.waiting :=
  C3_amended pW0 true rfl (Or.inl rfl)

/-- Claim C4: when the queue value changes to a list of length exactly
3 (here: from a longer list), the request-more effect runs and sends
exactly one message on that tick; on a later render where the queue is
unchanged and still of length 3, the dependency list is unchanged, so
the effect does not run again and no duplicate is sent. -/
theorem C4_confirmed (old nw : List Restaurant)
    (hgt : 3 < old.length) (h3 : nw.length = 3) :
    requestMoreFires (some old) (some nw) = true ∧
    requestMoreFires (some nw) (some nw) = false := by
  have hne : (some old : Option (List Restaurant)) ≠ some nw := by
    intro h
    rw [Option.some.injEq] at h
    rw [h, h3] at hgt
    omega
  constructor
  · simp [requestMoreFires, lowQueueGuard, hne, h3]
  · simp [requestMoreFires]

/-- Claim C4, witness at a concrete input. -/
theorem C4_confirmed_witness :
    requestMoreFires (some [ra, rb, rc, rd]) (some [ra, rb, rc]) = true ∧
    requestMoreFires (some [ra, rb, rc]) (some [ra, rb, rc]) = false :=
  C4_confirmed [ra, rb, rc, rd] [ra, rb, rc] (by decide) (by decide)

/-- Claim C5, counterexample: two consecutive snapshots that differ as
whole Party values (total changed) but carry byte-for-byte the same
non-empty current batch.  Deep equality over the full Party values says
a new batch arrived, yet the reconciler leaves the seeded queue
unchanged: the decision is made on the current fields alone. -/
theorem C5_counterexample :
    newBatchByFullPartyEq pPrev5 (some pNew5) = true ∧
    getCurrent (some pNew5) = pPrev5.current ∧
    pNew5.current = some [ra] ∧
    reconcile pPrev5 (some pNew5) (some [ra]) = some [ra] := by
  decide

/-- Claim C5, amended: the new-batch decision depends on the two
snapshots only through their current fields — replacing either Party
value by one with the same current field (all other fields arbitrary)
cannot change the outcome of the reconciliation step. -/
theorem C5_amended (pp1 pp2 : Party) (p1 p2 : Option Party)
    (rs : Option (List Restaurant))
    (h1 : pp1.current = pp2.current) (h2 : getCurrent p1 = getCurrent p2) :
    reconcile pp1 p1 rs = reconcile pp2 p2 rs := by
  rw [reconcile_eq, reconcile_eq, h1, h2]

/-- Claim C5, witness for the amended theorem at a concrete input. -/
theorem C5_amended_witness :
    reconcile pPrev5 (some pNew5) (some [ra]) =
      reconcile { pPrev5 with total := some 7 }
        (some { pNew5 with id := some "ZZ" }) (some [ra]) :=
  C5_amended pPrev5 { pPrev5 with total := some 7 } (some pNew5)
    (some { pNew5 with id := some "ZZ" }) (some [ra]) rfl rfl

/-- Claim C6: a push whose current batch equals the current captured at
the previous tick is a no-op for the reconciler — the Local Queue is
returned unchanged, whatever it is. -/
theorem C6_confirmed (pp : Party) (p : Option Party)
    (rs : Option (List Restaurant)) (h : getCurrent p = pp.current) :
    reconcile pp p rs = rs := by
  rw [reconcile_eq]
  simp [h]

/-- Claim C6, witness at a concrete input. -/
theorem C6_confirmed_witness :
    reconcile pPrev5 (some pPrev5) (some [ra, rb]) = some [ra, rb] :=
  C6_confirmed pPrev5 (some pPrev5) (some [ra, rb]) rfl

/-- Claim C7, counterexample: request-more is not restricted to the
Active view.  With a 3-restaurant catalog and total 0 the screen shows
the Exhausted view; pressing Start Over refills the queue to the
3-element catalog, the dependency changed and has length 3, so the
effect sends request-more while the view is still Exhausted. -/
theorem C7_counterexample :
    deriveView (some pEx) true = ViewKind.exhausted ∧
    (startOver ⟨some pEx, true, some [], none⟩).1.restaurants = some [ra, rb, rc] ∧
    requestMoreFires (some []) (some [ra, rb, rc]) = true ∧
    deriveView (some pEx) false = ViewKind.exhausted := by
  decide

/-- Claim C7, amended: the request-more trigger consults only the queue
state — it fires on any change of the queue to a list of length exactly
3, whatever the lifecycle view derived from the Party value is. -/
theorem C7_amended (d : Option (List Restaurant)) (l : List Restaurant)
    (hne : d ≠ some l) (h3 : l.length = 3) :
    requestMoreFires d (some l) = true := by
  simp [requestMoreFires, lowQueueGuard, hne, h3]

/-- Claim C7, witness for the amended theorem at a concrete input. -/
theorem C7_amended_witness :
    requestMoreFires (some []) (some [ra, rb, rc]) = true :=
  C7_amended (some []) [ra, rb, rc] (by decide) (by decide)

/-- Claim C8: whenever the Party carries a non-empty error, every
render shows the error alert on top of whatever view the cascade
returns, for every local state; acknowledging it sends no socket
message, navigates to Join and resets the Party to the empty value. -/
theorem C8_confirmed (party : Option Party) (f : Bool)
    (h : hasError party = true) :
    (render party f).errorAlert = true ∧ errorAck.messages = [] ∧
    errorAck.navigate = some Screen.join ∧
    errorAck.partyAfter = some emptyParty :=
  ⟨by simp [render, h], rfl, rfl, rfl⟩

/-- Claim C8, witness at a concrete input (error while waiting). -/
theorem C8_confirmed_witness :
    (render (some pErr) false).errorAlert = true ∧ errorAck.messages = [] ∧
    errorAck.navigate = some Screen.join ∧
    errorAck.partyAfter = some emptyParty :=
  C8_confirmed (some pErr) false (by decide)

/-- Claim C9: Start Over sets the Local Queue to exactly
`party?.restaurants`, clears the finished flag, sends no message, and
leaves the Party value and the details selection untouched. -/
theorem C9_confirmed (s : ScreenState) :
    (startOver s).1.restaurants = getRestaurants s.party ∧
    (startOver s).1.finished = false ∧
    (startOver s).2 = [] ∧
    (startOver s).1.party = s.party ∧
    (startOver s).1.details = s.details :=
  ⟨rfl, rfl, rfl, rfl, rfl⟩

/-- Claim C10: a non-empty current batch that differs from the previous
tick is dropped when the queue is not yet seeded — the queue state stays
absent — and it is not merged later either: once the snapshot has been
captured, re-reconciling the same push against a seeded queue is a
no-op because the current fields now agree. -/
theorem C10_confirmed (pp p : Party) (l rs : List Restaurant)
    (hcur : p.current = some l) (hne : l ≠ []) (hdiff : some l ≠ pp.current) :
    reconcile pp (some p) none = none ∧
    reconcile p (some p) (some rs) = some rs := by
  constructor
  · rw [reconcile_eq]
    cases hg : getCurrent (some p) <;> split <;> rfl
  · rw [reconcile_eq]
    simp [getCurrent]

/-- Claim C10, witness at a concrete input. -/
theorem C10_confirmed_witness :
    reconcile emptyParty (some pA) none = none ∧
    reconcile pA (some pA) (some [rb]) = some [rb] :=
  C10_confirmed emptyParty pA [ra] [rb] rfl (by decide) (by decide)
